import Mathlib

/-!
Verification of the long-audio transcription control loop of
`whisper/transcribe.py` (the `transcribe` function and its helpers
`decode_with_fallback` and `add_segment`).

The embedding is shallow: the loop's mutable state (`seek`, `all_tokens`,
`all_segments`, `prompt_reset_since`) becomes an explicit `LoopState`,
the per-window body (source lines 157-226) becomes the pure step function
`processWindow`, and the model / tokenizer collaborators are parameters
(an oracle function for `model.decode`, a `Tokenizer` record for the
tokenizer adapter).  Real-valued quantities (timestamps, probabilities,
temperatures) are modelled as rationals, Python integers as `Int`/`Nat`.
-/

namespace Whisper

/-- `SAMPLE_RATE` from the audio module: 16 kHz. -/
def SAMPLE_RATE : Nat := 16000

/-- `HOP_LENGTH` from the audio module: 160 samples per mel frame. -/
def HOP_LENGTH : Nat := 160

/-- `N_FRAMES` from the audio module: mel frames in a 30-second window. -/
def N_FRAMES : Nat := 3000

/-- Modelled from the spec: `pad_or_trim` (the audio collaborator, whose
source is not part of this fragment) returns a window of exactly the target
number of frames, right-padding the final short window; only the length of
its output matters to the control loop, so only the length is modelled.
The first argument is the number of remaining (unpadded) frames. -/
def padOrTrimLen (_remaining target : Nat) : Nat := target

/-- The tokenizer adapter: the end-of-text sentinel id, the first timestamp
token id, and token-to-text decoding (an opaque collaborator function). -/
structure Tokenizer where
  eot : Nat
  timestampBegin : Nat
  decode : List Nat → String

/-- One decoding result for one window, as this variant uses it: `tokens`
holds one token sequence per alternative and `avgLogprob` is indexed by
alternative (`result.avg_logprob[i]` in the source); `temperature`,
`compressionRatio` and `noSpeechProb` are per-window scalars. -/
structure DecodingResult where
  tokens : List (List Nat)
  temperature : ℚ
  avgLogprob : List ℚ
  compressionRatio : ℚ
  noSpeechProb : ℚ
  deriving DecidableEq

/-- The segment record built at source lines 140-152. -/
structure Segment where
  id : Nat
  seek : Int
  start : ℚ
  end_ : ℚ
  text : String
  tokens : List (List Nat)
  temperature : ℚ
  avgLogprob : List ℚ
  compressionRatio : ℚ
  noSpeechProb : ℚ
  deriving DecidableEq

/-- Per-alternative accumulated state: `all_tokens[i]` and `all_segments[i]`. -/
structure AltState where
  allTokens : List Nat
  allSegments : List Segment
  deriving DecidableEq

/-- The empty per-alternative state (initial value at source lines 129-130). -/
def emptyAlt : AltState := { allTokens := [], allSegments := [] }

/-- The loop's mutable state: the window cursor `seek`, the per-alternative
states, and `prompt_reset_since`. -/
structure LoopState where
  seek : Int
  alts : List AltState
  promptResetSince : Nat
  deriving DecidableEq

/-- The thresholds and constants `transcribe` closes over: the tokenizer,
`no_speech_threshold`, `logprob_threshold`, and `input_stride` (mel frames
per output token, `exact_div N_FRAMES model.dims.n_audio_ctx`). -/
structure TranscribeCfg where
  tok : Tokenizer
  noSpeechThreshold : Option ℚ
  logprobThreshold : Option ℚ
  inputStride : Nat

/-- `time_precision = input_stride * HOP_LENGTH / SAMPLE_RATE` (line 126). -/
def timePrecision (inputStride : Nat) : ℚ :=
  (inputStride : ℚ) * HOP_LENGTH / SAMPLE_RATE

/-- Number of frames of the (padded) window `segment` (line 159): the mel
remainder `mel[:, :, seek:]` padded or trimmed to `N_FRAMES`. -/
def segmentFrames (nFrames : Nat) (seek : Int) : Nat :=
  padOrTrimLen ((nFrames : Int) - seek).toNat N_FRAMES

/-- `segment_duration = segment.shape[-1] * HOP_LENGTH / SAMPLE_RATE`
(line 160), computed from the already padded window. -/
def segment_duration (nFrames : Nat) (seek : Int) : ℚ :=
  (segmentFrames nFrames seek : ℚ) * HOP_LENGTH / SAMPLE_RATE

/-- `tokens.ge(tokenizer.timestamp_begin)`: whether a token id is a
timestamp token. -/
def isTimestamp (tok : Tokenizer) (t : Nat) : Bool :=
  decide (tok.timestampBegin ≤ t)

/-- Line 180: `torch.where(timestamp_tokens[:-1] & timestamp_tokens[1:])[0].add_(1)`,
the indices `i ≥ 1` such that tokens `i-1` and `i` are both timestamp tokens. -/
def consecutive (tok : Tokenizer) (tokens : List Nat) : List Nat :=
  ((List.range (tokens.length - 1)).filter (fun j =>
    isTimestamp tok (tokens.getD j 0) && isTimestamp tok (tokens.getD (j + 1) 0))).map
    (fun j => j + 1)

/-- Python `str.strip()` on the decoded text (line 137): drop whitespace
from both ends of the underlying character sequence. -/
def pyStrip (s : String) : String :=
  ⟨((s.data.dropWhile Char.isWhitespace).reverse.dropWhile
      Char.isWhitespace).reverse⟩

/-- The record appended by `add_segment` (lines 140-152): its id is the
current length of the alternative's segment list, its `seek` the current
cursor, the remaining metadata copied from the `DecodingResult`. -/
def mkSegment (seek : Int) (segs : List Segment) (start end_ : ℚ) (text : String)
    (result : DecodingResult) : Segment :=
  { id := segs.length, seek := seek, start := start, end_ := end_, text := text,
    tokens := result.tokens, temperature := result.temperature,
    avgLogprob := result.avgLogprob, compressionRatio := result.compressionRatio,
    noSpeechProb := result.noSpeechProb }

/-- `add_segment` (lines 133-153): decode the tokens with id below the
end-of-text sentinel, drop the segment when the stripped text is empty,
otherwise append one segment record. -/
def add_segment (tok : Tokenizer) (seek : Int) (segs : List Segment)
    (start end_ : ℚ) (textTokens : List Nat) (result : DecodingResult) :
    List Segment :=
  let text := tok.decode (textTokens.filter (fun t => decide (t < tok.eot)))
  if pyStrip text = "" then segs
  else segs ++ [mkSegment seek segs start end_ text result]

/-- One pass of the `for current_slice in consecutive` loop body
(lines 183-198): emit the segment between the previous boundary and this
one, then move `last_slice`.  The accumulator is `(all_segments[i], last_slice)`. -/
def consecStep (tok : Tokenizer) (seek : Int) (offset tp : ℚ)
    (result : DecodingResult) (tokens : List Nat)
    (acc : List Segment × Nat) (currentSlice : Nat) : List Segment × Nat :=
  let lastSlice := acc.2
  let sliced := (tokens.drop lastSlice).take (currentSlice - lastSlice)
  let startPos : Int := (sliced.headD 0 : Int) - (tok.timestampBegin : Int)
  let endPos : Int := (sliced.getLastD 0 : Int) - (tok.timestampBegin : Int)
  (add_segment tok seek acc.1 (offset + startPos * tp) (offset + endPos * tp)
    ((sliced.drop 1).dropLast) result, currentSlice)

/-- The whole `for current_slice in consecutive` loop (lines 182-198),
returning the updated segment list and the final `last_slice`. -/
def consecLoop (tok : Tokenizer) (seek : Int) (offset tp : ℚ)
    (result : DecodingResult) (tokens : List Nat) (segs : List Segment) :
    List Segment × Nat :=
  (consecutive tok tokens).foldl (consecStep tok seek offset tp result tokens)
    (segs, 0)

/-- Lines 224-226: after processing alternative `i`, if the result used a
temperature above `0.5`, set `prompt_reset_since` to the length of that
alternative's token history. -/
def promptResetStep (result : DecodingResult) (i : Nat) (st : LoopState) :
    LoopState :=
  if mkRat 1 2 < result.temperature then
    { st with promptResetSince := (st.alts.getD i emptyAlt).allTokens.length }
  else st

/-- The silence gate condition (lines 168-173): skip when `no_speech_prob`
exceeds the configured threshold, unless a logprob threshold is configured
and this alternative's `avg_logprob[i]` exceeds it. -/
def shouldSkip (noSpeechThreshold logprobThreshold : Option ℚ)
    (result : DecodingResult) (i : Nat) : Bool :=
  match noSpeechThreshold with
  | none => false
  | some nst =>
    let s := decide (nst < result.noSpeechProb)
    match logprobThreshold with
    | none => s
    | some lpt => if lpt < result.avgLogprob.getD i 0 then false else s

/-- Lines 179-226 for one alternative, after the silence gate: the
consecutive-timestamps path (lines 181-203) or the no-boundary path
(lines 204-222), followed by the prompt-reset step. -/
def processAltCore (tok : Tokenizer) (inputStride : Nat) (offset segDur tp : ℚ)
    (segFrames : Nat) (result : DecodingResult) (i : Nat) (tokens : List Nat)
    (st : LoopState) : LoopState :=
  let alt := st.alts.getD i emptyAlt
  let cons := consecutive tok tokens
  if 0 < cons.length then
    let res := consecLoop tok st.seek offset tp result tokens alt.allSegments
    let lastSlice := res.2
    let lastTsPos : Int :=
      (tokens.getD (lastSlice - 1) 0 : Int) - (tok.timestampBegin : Int)
    promptResetStep result i
      { st with
        seek := st.seek + lastTsPos * (inputStride : Int),
        alts := st.alts.set i
          { allTokens := alt.allTokens ++ tokens.take (lastSlice + 1),
            allSegments := res.1 } }
  else
    let timestamps := tokens.filter (fun t => isTimestamp tok t)
    let duration : ℚ :=
      if 0 < timestamps.length then
        ((timestamps.getLastD 0 : Int) - (tok.timestampBegin : Int)) * tp
      else segDur
    let segs :=
      add_segment tok st.seek alt.allSegments offset (offset + duration) tokens
        result
    promptResetStep result i
      { st with
        seek := st.seek + (segFrames : Int),
        alts := st.alts.set i
          { allTokens := alt.allTokens ++ tokens, allSegments := segs } }

/-- The whole body of `for i, tokens in enumerate(tokens_n)` (lines 166-226):
the silence gate (skip fast-forwards `seek` by the padded window length and
touches nothing else), otherwise the core segment extraction. -/
def processAlternative (cfg : TranscribeCfg) (offset segDur tp : ℚ)
    (segFrames : Nat) (result : DecodingResult) (i : Nat) (tokens : List Nat)
    (st : LoopState) : LoopState :=
  if shouldSkip cfg.noSpeechThreshold cfg.logprobThreshold result i then
    { st with seek := st.seek + (segFrames : Int) }
  else
    processAltCore cfg.tok cfg.inputStride offset segDur tp segFrames result i
      tokens st

/-- One fold step of the alternatives loop, taking the `(i, tokens)` pair. -/
def windowStep (cfg : TranscribeCfg) (offset segDur tp : ℚ) (segFrames : Nat)
    (result : DecodingResult) (st : LoopState) (p : Nat × List Nat) :
    LoopState :=
  processAlternative cfg offset segDur tp segFrames result p.1 p.2 st

/-- One iteration of the window loop (lines 157-226), given the
`DecodingResult` that `decode_with_fallback(segment)[0]` produced for this
window: compute `timestamp_offset` and `segment_duration` from the cursor,
then run every alternative in order over the shared window. -/
def processWindow (cfg : TranscribeCfg) (nFrames : Nat) (st : LoopState)
    (result : DecodingResult) : LoopState :=
  let offset : ℚ := (st.seek : ℚ) * HOP_LENGTH / SAMPLE_RATE
  let segFrames : Nat := segmentFrames nFrames st.seek
  let segDur : ℚ := segment_duration nFrames st.seek
  let tp : ℚ := timePrecision cfg.inputStride
  result.tokens.enum.foldl (windowStep cfg offset segDur tp segFrames result) st

/-- The conditioning prompt passed to the decoder at line 162:
`all_tokens[0][prompt_reset_since:]`. -/
def currentPrompt (st : LoopState) : List Nat :=
  (st.alts.getD 0 emptyAlt).allTokens.drop st.promptResetSince

/-- The `while seek < mel.shape[-1]` loop (line 157), fuel-bounded because
the source loop can stall (see the progress claim); the oracle stands for
the model collaborator and may read the whole state (it sees the prompt
through `currentPrompt`). -/
def transcribeLoop (cfg : TranscribeCfg) (nFrames : Nat)
    (oracle : LoopState → DecodingResult) : Nat → LoopState → LoopState
  | 0, st => st
  | fuel + 1, st =>
    if st.seek < (nFrames : Int) then
      transcribeLoop cfg nFrames oracle fuel
        (processWindow cfg nFrames st (oracle st))
    else st

/-- The `seek` advance that alternative `i` contributes within one window:
a pure function of the configuration, the shared result, and the
alternative's own token sequence. -/
def altAdvance (cfg : TranscribeCfg) (segFrames : Nat)
    (result : DecodingResult) (i : Nat) (tokens : List Nat) : Int :=
  if shouldSkip cfg.noSpeechThreshold cfg.logprobThreshold result i then
    (segFrames : Int)
  else
    let cons := consecutive cfg.tok tokens
    if 0 < cons.length then
      ((tokens.getD (cons.getLastD 0 - 1) 0 : Int) -
        (cfg.tok.timestampBegin : Int)) * (cfg.inputStride : Int)
    else (segFrames : Int)

/-- The `decode_options` fields `decode_with_fallback` manipulates
(lines 92-105): `best_of`, `beam_size`, `patience`. -/
structure DecodeKwargs where
  bestOf : Option Nat
  beamSize : Option Nat
  patience : Option ℚ
  deriving DecidableEq

/-- The `DecodingOptions` actually passed to `model.decode` (line 100):
the kwargs plus the chosen temperature. -/
structure DecodingOptions where
  temperature : ℚ
  bestOf : Option Nat
  beamSize : Option Nat
  patience : Option ℚ
  deriving DecidableEq

/-- Line 92: `temperature` is either a single value or an ordered tuple. -/
def temperaturesOf : ℚ ⊕ List ℚ → List ℚ
  | .inl t => [t]
  | .inr ts => ts

/-- `decode_with_fallback` (lines 91-120): take the first temperature, pop
`best_of` from the options when it is zero, call `model.decode` once and
return its results.  The temperature-fallback retry loop (lines 106-118) is
commented out in the source, so no further call happens.  The model
collaborator is the `modelDecode` parameter; alongside the results we
return the list of `DecodingOptions` it was invoked with (the call log).
`none` models the `IndexError` an empty temperature tuple would raise. -/
def decode_with_fallback (temperature : ℚ ⊕ List ℚ) (kwargs : DecodeKwargs)
    (modelDecode : DecodingOptions → List DecodingResult) :
    Option (List DecodingResult × List DecodingOptions) :=
  match temperaturesOf temperature with
  | [] => none
  | t :: _ =>
    let optionsBestOf : Option Nat := if t = 0 then none else kwargs.bestOf
    let options : DecodingOptions :=
      { temperature := t, bestOf := optionsBestOf,
        beamSize := kwargs.beamSize, patience := kwargs.patience }
    some (modelDecode options, [options])

/-! Concrete test fixtures: a small tokenizer whose text tokens `100` and
`101` decode to `"hi"` and `"bye"`, with the multilingual vocabulary's
end-of-text id `50257` and timestamp-begin id `50364` (so `50364 + k`
stands for the timestamp `k * 0.02` seconds), and the default
configuration `input_stride = 2`. -/

/-- Text of a single test token. -/
def tokStr : Nat → String := fun t =>
  if t = 100 then "hi" else if t = 101 then "bye" else ""

/-- Test token-sequence decoding: concatenate the per-token texts. -/
def testDecode : List Nat → String := fun l => String.join (l.map tokStr)

/-- The concrete test tokenizer. -/
def testTok : Tokenizer :=
  { eot := 50257, timestampBegin := 50364, decode := testDecode }

/-- Test configuration with both thresholds disabled. -/
def testCfg : TranscribeCfg :=
  { tok := testTok, noSpeechThreshold := none, logprobThreshold := none,
    inputStride := 2 }

/-- A fresh one-alternative loop state at cursor 0. -/
def st1 : LoopState := { seek := 0, alts := [emptyAlt], promptResetSince := 0 }

/-- A fresh two-alternative loop state at cursor 0. -/
def st2 : LoopState :=
  { seek := 0, alts := [emptyAlt, emptyAlt], promptResetSince := 0 }

/-- The stalling result for the progress claim: a single alternative whose
tokens are two consecutive timestamp tokens at position 0. -/
def resStall : DecodingResult :=
  { tokens := [[50364, 50364]], temperature := 0, avgLogprob := [0],
    compressionRatio := 0, noSpeechProb := 0 }

/-! Helper lemmas. -/

/-- The last element of a nonempty list is a member (via `getLastD`). -/
theorem getLastD_mem_of_ne_nil : ∀ (l : List Nat) (d : Nat), l ≠ [] → l.getLastD d ∈ l
  | [x], _, _ => by simp [List.getLastD]
  | x :: y :: t, d, _ => by
    have h := getLastD_mem_of_ne_nil (y :: t) x (by simp)
    simpa [List.getLastD_cons] using Or.inr h

/-- `promptResetStep` never moves the cursor. -/
theorem promptResetStep_seek (result : DecodingResult) (i : Nat) (st : LoopState) :
    (promptResetStep result i st).seek = st.seek := by
  unfold promptResetStep; split <;> rfl

/-- `promptResetStep` never touches the per-alternative states. -/
theorem promptResetStep_alts (result : DecodingResult) (i : Nat) (st : LoopState) :
    (promptResetStep result i st).alts = st.alts := by
  unfold promptResetStep; split <;> rfl

/-- The second accumulator component of the consecutive-boundaries fold is
the last boundary processed. -/
theorem foldl_consecStep_snd (tok : Tokenizer) (seek : Int) (offset tp : ℚ)
    (result : DecodingResult) (tokens : List Nat) :
    ∀ (l : List Nat) (acc : List Segment × Nat),
      (l.foldl (consecStep tok seek offset tp result tokens) acc).2 = l.getLastD acc.2
  | [], _ => rfl
  | x :: xs, acc => by
    rw [List.foldl_cons, foldl_consecStep_snd tok seek offset tp result tokens xs,
      List.getLastD_cons]
    rfl

/-- The final `last_slice` of the consecutive loop is the last boundary
index (`0` when there is none). -/
theorem consecLoop_snd (tok : Tokenizer) (seek : Int) (offset tp : ℚ)
    (result : DecodingResult) (tokens : List Nat) (segs : List Segment) :
    (consecLoop tok seek offset tp result tokens segs).2 =
      (consecutive tok tokens).getLastD 0 :=
  foldl_consecStep_snd tok seek offset tp result tokens _ _

/-- Each alternative advances the cursor by exactly its own `altAdvance`. -/
theorem processAlternative_seek (cfg : TranscribeCfg) (offset segDur tp : ℚ)
    (segFrames : Nat) (result : DecodingResult) (i : Nat) (tokens : List Nat)
    (st : LoopState) :
    (processAlternative cfg offset segDur tp segFrames result i tokens st).seek =
      st.seek + altAdvance cfg segFrames result i tokens := by
  unfold processAlternative altAdvance
  by_cases hs : shouldSkip cfg.noSpeechThreshold cfg.logprobThreshold result i
  · simp [hs]
  · simp only [hs, if_neg, Bool.false_eq_true, not_false_iff, ite_false]
    unfold processAltCore
    by_cases hc : 0 < (consecutive cfg.tok tokens).length
    · simp only [hc, ite_true, promptResetStep_seek]
      rw [consecLoop_snd]
    · simp [hc, promptResetStep_seek]

/-- Folding the alternatives loop adds every alternative's own advance. -/
theorem foldl_windowStep_seek (cfg : TranscribeCfg) (offset segDur tp : ℚ)
    (segFrames : Nat) (result : DecodingResult) :
    ∀ (l : List (Nat × List Nat)) (st : LoopState),
      (l.foldl (windowStep cfg offset segDur tp segFrames result) st).seek =
        st.seek + (l.map (fun p => altAdvance cfg segFrames result p.1 p.2)).sum
  | [], st => by simp
  | x :: xs, st => by
    rw [List.foldl_cons, foldl_windowStep_seek cfg offset segDur tp segFrames result xs]
    show (windowStep cfg offset segDur tp segFrames result st x).seek + _ = _
    rw [windowStep, processAlternative_seek]
    simp [add_assoc]

/-- The cursor after one window is the entry cursor plus the sum of the
per-alternative advances. -/
theorem processWindow_seek (cfg : TranscribeCfg) (nFrames : Nat)
    (st : LoopState) (result : DecodingResult) :
    (processWindow cfg nFrames st result).seek =
      st.seek +
        (result.tokens.enum.map
          (fun p => altAdvance cfg N_FRAMES result p.1 p.2)).sum :=
  foldl_windowStep_seek cfg _ _ _ _ result result.tokens.enum st

/-- Every boundary index produced by `consecutive` points one past a
timestamp token: the token at `c - 1` is a timestamp token. -/
theorem consecutive_pred_isTimestamp (tok : Tokenizer) (tokens : List Nat)
    (c : Nat) (hc : c ∈ consecutive tok tokens) :
    tok.timestampBegin ≤ tokens.getD (c - 1) 0 := by
  unfold consecutive at hc
  obtain ⟨j, hj, rfl⟩ := List.mem_map.1 hc
  obtain ⟨-, hf⟩ := List.mem_filter.1 hj
  rw [Bool.and_eq_true] at hf
  have h1 : isTimestamp tok (tokens.getD j 0) = true := hf.1
  simpa [isTimestamp, Nat.add_sub_cancel] using of_decide_eq_true h1

/-- A per-alternative cursor advance is never negative. -/
theorem altAdvance_nonneg (cfg : TranscribeCfg) (segFrames : Nat)
    (result : DecodingResult) (i : Nat) (tokens : List Nat) :
    0 ≤ altAdvance cfg segFrames result i tokens := by
  unfold altAdvance
  by_cases hs : shouldSkip cfg.noSpeechThreshold cfg.logprobThreshold result i
  · simp only [hs, ite_true]
    exact Int.natCast_nonneg segFrames
  · simp only [hs, Bool.false_eq_true, not_false_iff, ite_false]
    by_cases hc : 0 < (consecutive cfg.tok tokens).length
    · simp only [hc, ite_true]
      have hmem : (consecutive cfg.tok tokens).getLastD 0 ∈ consecutive cfg.tok tokens :=
        getLastD_mem_of_ne_nil _ 0 (List.length_pos.1 hc)
      have hts := consecutive_pred_isTimestamp cfg.tok tokens _ hmem
      have : (0 : Int) ≤
          (tokens.getD ((consecutive cfg.tok tokens).getLastD 0 - 1) 0 : Int) -
            (cfg.tok.timestampBegin : Int) := by
        omega
      exact mul_nonneg this (Int.natCast_nonneg _)
    · simp only [hc, ite_false]
      exact Int.natCast_nonneg segFrames

/-- C1: the claim that `seek` strictly increases on every window-loop
iteration fails: with a single alternative decoding to two consecutive
timestamp tokens at position 0 (`[TS(0), TS(0)]`), the advance
`last_timestamp_position * input_stride` is zero, the cursor stays at 0
although the loop condition `seek < mel.shape[-1]` holds, and the loop
stalls (five further iterations with the same result leave `seek` at 0). -/
theorem C1_progress_cex :
    st1.seek < (3000 : Int) ∧
    (processWindow testCfg 3000 st1 resStall).seek = st1.seek ∧
    (transcribeLoop testCfg 3000 (fun _ => resStall) 5 st1).seek = st1.seek :=
  ⟨by decide, by decide, by decide⟩

/-- C1 (amended): for every iteration of the window loop and every possible
`DecodingResult`, the value of `seek` after the iteration is greater than
or equal to its value before; it is not always strictly greater, because a
window whose alternatives all end their last consumed boundary at timestamp
position 0 advances the cursor by zero. -/
theorem C1_seek_monotone (cfg : TranscribeCfg) (nFrames : Nat) (st : LoopState)
    (result : DecodingResult) :
    st.seek ≤ (processWindow cfg nFrames st result).seek := by
  rw [processWindow_seek]
  refine le_add_of_nonneg_right (List.sum_nonneg ?_)
  intro x hx
  obtain ⟨p, -, rfl⟩ := List.mem_map.1 hx
  exact altAdvance_nonneg cfg N_FRAMES result p.1 p.2

/-- Two alternatives both decoding the plain text token `100` ("hi"). -/
def resPair : DecodingResult :=
  { tokens := [[100], [100]], temperature := 0, avgLogprob := [0, 0],
    compressionRatio := 0, noSpeechProb := 0 }

/-- C2: the claim that `seek` is advanced exactly once per window, from
alternative 0's result only, fails: with two alternatives whose window
advance (computed from alternative 0) would be the full window of 3000
frames, the cursor moves by 6000 frames, because the source advances `seek`
inside the per-alternative loop, once for every alternative. -/
theorem C2_seek_once_cex :
    altAdvance testCfg 3000 resPair 0 [100] = 3000 ∧
    (processWindow testCfg 3000 st2 resPair).seek = st2.seek + 6000 :=
  ⟨by decide, by decide⟩

/-- C2 (amended): within a single window the cursor is advanced once per
alternative, each advance computed from that alternative's own token
sequence (all alternatives do share the window's `timestamp_offset` and
contents): the post-window cursor is the entry cursor plus the sum over
`enumerate(result.tokens)` of the per-alternative advances. -/
theorem C2_seek_per_alternative (cfg : TranscribeCfg) (nFrames : Nat)
    (st : LoopState) (result : DecodingResult) :
    (processWindow cfg nFrames st result).seek =
      st.seek +
        (result.tokens.enum.map
          (fun p => altAdvance cfg N_FRAMES result p.1 p.2)).sum :=
  processWindow_seek cfg nFrames st result

/-- The boundary-case token sequence of the claim:
`[TS(0), "hi", TS(5s), TS(5s), "bye", TS(10s)]` — ids
`[50364, 100, 50614, 50614, 101, 50864]` (5s = position 250, 10s = 500). -/
def resBoundary : DecodingResult :=
  { tokens := [[50364, 100, 50614, 50614, 101, 50864]], temperature := 0,
    avgLogprob := [0], compressionRatio := 0, noSpeechProb := 0 }

/-- C3: the claim that this window yields two Segments and advances `seek`
to the 10s frame position (1000) fails: the source finds a single
consecutive-timestamp pair (at the two `TS(5s)` tokens), so it emits
exactly one Segment and advances `seek` only to the 5s position
(`250 * input_stride = 500` frames). -/
theorem C3_boundary_cex :
    ((processWindow testCfg 3000 st1 resBoundary).alts.getD 0
        emptyAlt).allSegments.length = 1 ∧
    (processWindow testCfg 3000 st1 resBoundary).seek = 500 :=
  ⟨by decide, by decide⟩

/-- C3 (amended): for that window the Segment Extractor emits exactly one
Segment, `[0, 5s]` with text `"hi"`, appends the tokens up through the
second `TS(5s)` to the token history, and advances `seek` to the frame
position of the 5s boundary (500), leaving the rest of the window for the
next iteration. -/
theorem C3_boundary_amended :
    processWindow testCfg 3000 st1 resBoundary =
      { seek := 500,
        alts := [{ allTokens := [50364, 100, 50614, 50614],
                   allSegments := [{ id := 0, seek := 0, start := 0, end_ := 5,
                                     text := "hi", tokens := resBoundary.tokens,
                                     temperature := 0, avgLogprob := [0],
                                     compressionRatio := 0,
                                     noSpeechProb := 0 }] }],
        promptResetSince := 0 } := by
  norm_num [processWindow, windowStep, processAlternative, shouldSkip,
    processAltCore, consecutive, consecLoop, consecStep, add_segment, mkSegment,
    promptResetStep, segmentFrames, segment_duration, timePrecision,
    padOrTrimLen, isTimestamp, pyStrip, emptyAlt, testCfg, testTok, testDecode,
    tokStr, st1, resBoundary, N_FRAMES, HOP_LENGTH, SAMPLE_RATE, List.enum,
    List.enumFrom, List.foldl]
  decide

/-- A single alternative decoding only the plain text token `100` ("hi"),
with no timestamp tokens. -/
def resShort : DecodingResult :=
  { tokens := [[100]], temperature := 0, avgLogprob := [0],
    compressionRatio := 0, noSpeechProb := 0 }

/-- C4: the claim that `segment_duration` is the unpadded window length
`min(remaining_frames, N_FRAMES) * hop_duration` fails: the source computes
it from the already padded window, so for a mel buffer of 100 remaining
frames (1 second) it is 30 seconds, not 1 second, and the single Segment of
a timestamp-free final short window spans `[0, 30]`, not `[0, 1]`. -/
theorem C4_duration_cex :
    segment_duration 100 0 = 30 ∧
    (min 100 N_FRAMES : ℚ) * HOP_LENGTH / SAMPLE_RATE = 1 ∧
    ((processWindow testCfg 100 st1 resShort).alts.getD 0
        emptyAlt).allSegments.map (fun s => (s.start, s.end_)) = [(0, 30)] := by
  refine ⟨?_, ?_, ?_⟩
  · norm_num [segment_duration, segmentFrames, padOrTrimLen, N_FRAMES,
      HOP_LENGTH, SAMPLE_RATE]
  · norm_num [N_FRAMES, HOP_LENGTH, SAMPLE_RATE]
  · norm_num [processWindow, windowStep, processAlternative, shouldSkip,
      processAltCore, consecutive, consecLoop, consecStep, add_segment,
      mkSegment, promptResetStep, segmentFrames, segment_duration,
      timePrecision, padOrTrimLen, isTimestamp, pyStrip, emptyAlt, testCfg,
      testTok, testDecode, tokStr, st1, resShort, N_FRAMES, HOP_LENGTH,
      SAMPLE_RATE, List.enum, List.enumFrom, List.foldl]
    decide

/-- C4 (amended): `segment_duration` always equals `N_FRAMES * hop_duration`
= 30 seconds, whatever the remaining frame count, and in the no-boundary
case with no timestamp token the single emitted Segment spans the padded
30-second window — for every mel buffer length `nFrames`, including short
final windows, the segment is `[0, 30]` and the cursor advances by the full
padded window. -/
theorem C4_duration_padded (nFrames : Nat) (seek : Int) :
    segment_duration nFrames seek = 30 ∧
    ((processWindow testCfg nFrames st1 resShort).alts.getD 0
        emptyAlt).allSegments.map (fun s => (s.start, s.end_)) = [(0, 30)] ∧
    (processWindow testCfg nFrames st1 resShort).seek = 3000 := by
  refine ⟨?_, ?_, ?_⟩
  · norm_num [segment_duration, segmentFrames, padOrTrimLen, N_FRAMES,
      HOP_LENGTH, SAMPLE_RATE]
  · norm_num [processWindow, windowStep, processAlternative, shouldSkip,
      processAltCore, consecutive, consecLoop, consecStep, add_segment,
      mkSegment, promptResetStep, segmentFrames, segment_duration,
      timePrecision, padOrTrimLen, isTimestamp, pyStrip, emptyAlt, testCfg,
      testTok, testDecode, tokStr, st1, resShort, N_FRAMES, HOP_LENGTH,
      SAMPLE_RATE, List.enum, List.enumFrom, List.foldl]
    decide
  · norm_num [processWindow, windowStep, processAlternative, shouldSkip,
      processAltCore, consecutive, consecLoop, consecStep, add_segment,
      mkSegment, promptResetStep, segmentFrames, segment_duration,
      timePrecision, padOrTrimLen, isTimestamp, pyStrip, emptyAlt, testCfg,
      testTok, testDecode, tokStr, st1, resShort, N_FRAMES, HOP_LENGTH,
      SAMPLE_RATE, List.enum, List.enumFrom, List.foldl]

/-- Test configuration with the default thresholds of the source
(`no_speech_threshold = 0.6`, `logprob_threshold = -1.0`). -/
def cfgGate : TranscribeCfg :=
  { testCfg with noSpeechThreshold := some (mkRat 3 5),
                 logprobThreshold := some (-1) }

/-- A result with high no-speech probability (0.9) and low average log
probability (-2), failing the override. -/
def resSilent : DecodingResult :=
  { tokens := [[100]], temperature := 0, avgLogprob := [-2],
    compressionRatio := 0, noSpeechProb := mkRat 9 10 }

/-- The same but with high average log probability (-0.5), passing the
override. -/
def resLoud : DecodingResult := { resSilent with avgLogprob := [mkRat (-1) 2] }

/-- C5: when a no-speech threshold is configured and `no_speech_prob`
exceeds it, the alternative is skipped for this window — the state is
unchanged except that `seek` advances by the full (padded) window frame
count — unless a log-probability threshold is configured and this
alternative's `avg_logprob[i]` exceeds it, in which case the alternative is
processed by the normal segment-extraction path. -/
theorem C5_no_speech_gate (cfg : TranscribeCfg) (offset segDur tp : ℚ)
    (segFrames : Nat) (result : DecodingResult) (i : Nat) (tokens : List Nat)
    (st : LoopState) (nst : ℚ) (hns : cfg.noSpeechThreshold = some nst)
    (hprob : nst < result.noSpeechProb) :
    (cfg.logprobThreshold = none →
      processAlternative cfg offset segDur tp segFrames result i tokens st =
        { st with seek := st.seek + (segFrames : Int) }) ∧
    (∀ lpt, cfg.logprobThreshold = some lpt →
      result.avgLogprob.getD i 0 ≤ lpt →
      processAlternative cfg offset segDur tp segFrames result i tokens st =
        { st with seek := st.seek + (segFrames : Int) }) ∧
    (∀ lpt, cfg.logprobThreshold = some lpt →
      lpt < result.avgLogprob.getD i 0 →
      processAlternative cfg offset segDur tp segFrames result i tokens st =
        processAltCore cfg.tok cfg.inputStride offset segDur tp segFrames
          result i tokens st) := by
  refine ⟨?_, ?_, ?_⟩
  · intro hlp
    simp [processAlternative, shouldSkip, hns, hlp, hprob]
  · intro lpt hlp hle
    rw [List.getD_eq_getElem?_getD] at hle
    simp [processAlternative, shouldSkip, hns, hlp, hprob, not_lt.2 hle]
  · intro lpt hlp hlt
    rw [List.getD_eq_getElem?_getD] at hlt
    simp [processAlternative, shouldSkip, hns, hlp, hlt]

/-- C5 witness: with the default thresholds, `no_speech_prob = 0.9` and
`avg_logprob = -2` skip the window (cursor jumps by the padded window),
while `avg_logprob = -0.5` overrides the gate and processing proceeds. -/
theorem C5_no_speech_gate_witness :
    processAlternative cfgGate 0 30 (mkRat 1 50) 3000 resSilent 0 [100] st1 =
      { st1 with seek := st1.seek + (3000 : Int) } ∧
    processAlternative cfgGate 0 30 (mkRat 1 50) 3000 resLoud 0 [100] st1 =
      processAltCore cfgGate.tok cfgGate.inputStride 0 30 (mkRat 1 50) 3000
        resLoud 0 [100] st1 :=
  ⟨(C5_no_speech_gate cfgGate 0 30 (mkRat 1 50) 3000 resSilent 0 [100] st1
      (mkRat 3 5) rfl (by decide)).2.1 (-1) rfl (by decide),
   (C5_no_speech_gate cfgGate 0 30 (mkRat 1 50) 3000 resLoud 0 [100] st1
      (mkRat 3 5) rfl (by decide)).2.2 (-1) rfl (by decide)⟩

/-- A high-temperature (0.6) result with two alternatives of different
lengths: alternative 0 decodes one token, alternative 1 decodes two. -/
def resHighTemp : DecodingResult :=
  { tokens := [[100], [100, 101]], temperature := mkRat 3 5,
    avgLogprob := [0, 0], compressionRatio := 0, noSpeechProb := 0 }

/-- The same window at temperature 0.3. -/
def resLowTemp : DecodingResult := { resHighTemp with temperature := mkRat 3 10 }

/-- C6: the claim that after a window at temperature > 0.5
`prompt_reset_since` equals the length of alternative 0's token history
fails: each alternative overwrites it in turn, so after a 0.6-temperature
window whose alternative 0 holds 1 token and alternative 1 holds 2, it is
2, the length of the last alternative's history, not 1. -/
theorem C6_prompt_reset_cex :
    (processWindow testCfg 3000 st2 resHighTemp).promptResetSince = 2 ∧
    ((processWindow testCfg 3000 st2 resHighTemp).alts.getD 0
        emptyAlt).allTokens.length = 1 :=
  ⟨by decide, by decide⟩

/-- A low-temperature prompt-reset step keeps `prompt_reset_since`. -/
theorem promptResetStep_prs_of_le (result : DecodingResult) (i : Nat)
    (st : LoopState) (h : result.temperature ≤ mkRat 1 2) :
    (promptResetStep result i st).promptResetSince = st.promptResetSince := by
  unfold promptResetStep
  rw [if_neg (not_lt.2 h)]

/-- A high-temperature prompt-reset step stores alternative `i`'s history
length. -/
theorem promptResetStep_prs_high (result : DecodingResult) (i : Nat)
    (st : LoopState) (h : mkRat 1 2 < result.temperature) :
    (promptResetStep result i st).promptResetSince =
      (st.alts.getD i emptyAlt).allTokens.length := by
  unfold promptResetStep
  rw [if_pos h]

/-- A low-temperature alternative step keeps `prompt_reset_since`. -/
theorem processAlternative_prs_of_le (cfg : TranscribeCfg) (offset segDur tp : ℚ)
    (segFrames : Nat) (result : DecodingResult) (i : Nat) (tokens : List Nat)
    (st : LoopState) (h : result.temperature ≤ mkRat 1 2) :
    (processAlternative cfg offset segDur tp segFrames result i tokens
        st).promptResetSince = st.promptResetSince := by
  unfold processAlternative
  split
  · rfl
  · unfold processAltCore
    dsimp only
    split
    · rw [promptResetStep_prs_of_le result i _ h]
    · rw [promptResetStep_prs_of_le result i _ h]

/-- A no-gate high-temperature alternative step leaves `prompt_reset_since`
equal to the step's own alternative's post-step history length. -/
theorem processAlternative_prs_high (cfg : TranscribeCfg) (offset segDur tp : ℚ)
    (segFrames : Nat) (result : DecodingResult) (i : Nat) (tokens : List Nat)
    (st : LoopState) (hns : cfg.noSpeechThreshold = none)
    (ht : mkRat 1 2 < result.temperature) :
    (processAlternative cfg offset segDur tp segFrames result i tokens
        st).promptResetSince =
      (((processAlternative cfg offset segDur tp segFrames result i tokens
          st).alts.getD i emptyAlt)).allTokens.length := by
  have hskip : shouldSkip cfg.noSpeechThreshold cfg.logprobThreshold result i
      = false := by
    rw [hns]; rfl
  unfold processAlternative
  rw [hskip]
  simp only [Bool.false_eq_true, if_false]
  unfold processAltCore
  dsimp only
  split
  · rw [promptResetStep_prs_high result i _ ht, promptResetStep_alts]
  · rw [promptResetStep_prs_high result i _ ht, promptResetStep_alts]

/-- Folding the alternatives loop over a nonempty index list (with no
silence gate and high temperature) leaves `prompt_reset_since` equal to the
final history length of the last processed alternative. -/
theorem foldl_windowStep_prs (cfg : TranscribeCfg) (offset segDur tp : ℚ)
    (segFrames : Nat) (result : DecodingResult)
    (hns : cfg.noSpeechThreshold = none)
    (ht : mkRat 1 2 < result.temperature) :
    ∀ (l : List (Nat × List Nat)) (st : LoopState) (d : Nat × List Nat),
      l ≠ [] →
      (l.foldl (windowStep cfg offset segDur tp segFrames result)
          st).promptResetSince =
        (((l.foldl (windowStep cfg offset segDur tp segFrames result)
            st).alts.getD (l.getLastD d).1 emptyAlt)).allTokens.length
  | [], _, _, h => absurd rfl h
  | [x], st, d, _ => by
    rw [List.foldl_cons, List.foldl_nil, List.getLastD_cons, List.getLastD]
    exact processAlternative_prs_high cfg offset segDur tp segFrames result
      x.1 x.2 st hns ht
  | x :: y :: t, st, d, _ => by
    rw [List.foldl_cons, List.getLastD_cons]
    exact foldl_windowStep_prs cfg offset segDur tp segFrames result hns ht
      (y :: t) _ x (by simp)

/-- The first component of the last entry of `enumFrom` is the start index
plus the list length minus one. -/
theorem enumFrom_getLastD_fst : ∀ (l : List (List Nat)) (n : Nat)
    (d : Nat × List Nat), l ≠ [] →
    ((List.enumFrom n l).getLastD d).1 = n + l.length - 1
  | [], _, _, h => absurd rfl h
  | [x], n, d, _ => by simp [List.enumFrom, List.getLastD]
  | x :: y :: t, n, d, _ => by
    have ih := enumFrom_getLastD_fst (y :: t) (n + 1) (n, x) (by simp)
    show ((List.enumFrom n (x :: y :: t)).getLastD d).1 = _
    rw [show List.enumFrom n (x :: y :: t)
        = (n, x) :: List.enumFrom (n + 1) (y :: t) from rfl,
      List.getLastD_cons, ih]
    simp
    omega

/-- Folding the alternatives loop at low temperature preserves
`prompt_reset_since`. -/
theorem foldl_windowStep_prs_of_le (cfg : TranscribeCfg) (offset segDur tp : ℚ)
    (segFrames : Nat) (result : DecodingResult)
    (h : result.temperature ≤ mkRat 1 2) :
    ∀ (l : List (Nat × List Nat)) (st : LoopState),
      (l.foldl (windowStep cfg offset segDur tp segFrames result)
          st).promptResetSince = st.promptResetSince
  | [], _ => rfl
  | x :: xs, st => by
    rw [List.foldl_cons,
      foldl_windowStep_prs_of_le cfg offset segDur tp segFrames result h xs]
    exact processAlternative_prs_of_le cfg offset segDur tp segFrames result
      x.1 x.2 st h

/-- C6 (amended): a window decoded at temperature at most 0.5 leaves
`prompt_reset_since` unchanged; a window decoded at temperature above 0.5
(with the silence gate disabled, so no alternative is skipped) sets it to
the post-window token-history length of the LAST alternative
(index `num_alternatives - 1`), each alternative having overwritten it in
turn — not alternative 0's history length. -/
theorem C6_prompt_reset_last (cfg : TranscribeCfg) (nFrames : Nat)
    (st : LoopState) (result : DecodingResult) :
    (result.temperature ≤ mkRat 1 2 →
      (processWindow cfg nFrames st result).promptResetSince =
        st.promptResetSince) ∧
    (cfg.noSpeechThreshold = none → mkRat 1 2 < result.temperature →
      result.tokens ≠ [] →
      (processWindow cfg nFrames st result).promptResetSince =
        ((processWindow cfg nFrames st result).alts.getD
          (result.tokens.length - 1) emptyAlt).allTokens.length) := by
  constructor
  · intro h
    exact foldl_windowStep_prs_of_le cfg ((st.seek : ℚ) * HOP_LENGTH / SAMPLE_RATE)
      (segment_duration nFrames st.seek) (timePrecision cfg.inputStride)
      (segmentFrames nFrames st.seek) result h result.tokens.enum st
  · intro hns ht htokens
    have hne : result.tokens.enum ≠ [] := by
      intro hcontra
      apply htokens
      have := congrArg List.length hcontra
      simpa [List.enum_length] using this
    have key := foldl_windowStep_prs cfg
      ((st.seek : ℚ) * HOP_LENGTH / SAMPLE_RATE)
      (segment_duration nFrames st.seek) (timePrecision cfg.inputStride)
      (segmentFrames nFrames st.seek) result hns ht result.tokens.enum st
      (0, []) hne
    have hidx : ((result.tokens.enum).getLastD (0, [])).1 =
        result.tokens.length - 1 := by
      simpa using enumFrom_getLastD_fst result.tokens 0 (0, []) htokens
    rw [hidx] at key
    exact key

/-- C6 witness: the concrete temperature-0.3 window keeps
`prompt_reset_since` at 0, and the concrete temperature-0.6 window sets it
to the last alternative's history length. -/
theorem C6_prompt_reset_last_witness :
    (processWindow testCfg 3000 st2 resLowTemp).promptResetSince =
      st2.promptResetSince ∧
    (processWindow testCfg 3000 st2 resHighTemp).promptResetSince =
      ((processWindow testCfg 3000 st2 resHighTemp).alts.getD 1
        emptyAlt).allTokens.length :=
  ⟨(C6_prompt_reset_last testCfg 3000 st2 resLowTemp).1 (by decide),
   (C6_prompt_reset_last testCfg 3000 st2 resHighTemp).2 rfl (by decide)
     (by decide)⟩

/-- C7: for every window, `decode_with_fallback` invokes the model's decode
capability exactly once, at the first configured temperature (the call log
is a single-options list), returning that single call's results; the
remaining temperatures and the fallback thresholds never trigger a
re-decode, the retry loop being commented out in the source. -/
theorem C7_single_decode (temperature : ℚ ⊕ List ℚ) (kwargs : DecodeKwargs)
    (modelDecode : DecodingOptions → List DecodingResult)
    (t : ℚ) (rest : List ℚ) (h : temperaturesOf temperature = t :: rest) :
    ∃ options : DecodingOptions,
      decode_with_fallback temperature kwargs modelDecode =
        some (modelDecode options, [options]) ∧
      options.temperature = t := by
  refine ⟨{ temperature := t,
            bestOf := if t = 0 then none else kwargs.bestOf,
            beamSize := kwargs.beamSize, patience := kwargs.patience },
          ?_, rfl⟩
  unfold decode_with_fallback
  rw [h]

/-- C7 witness: a concrete temperature tuple `(0, 0.2)` yields exactly one
call, at temperature 0. -/
theorem C7_single_decode_witness :
    ∃ options : DecodingOptions,
      decode_with_fallback (Sum.inr [0, mkRat 1 5])
          { bestOf := some 5, beamSize := some 5, patience := none }
          (fun _ => []) =
        some ([], [options]) ∧
      options.temperature = 0 :=
  C7_single_decode (Sum.inr [0, mkRat 1 5])
    { bestOf := some 5, beamSize := some 5, patience := none }
    (fun _ => []) 0 [mkRat 1 5] rfl

/-- A decoded sequence with decreasing timestamps:
`[TS(10s), "hi", TS(5s), TS(5s)]` — ids `[50864, 100, 50614, 50614]`. -/
def resDecreasing : DecodingResult :=
  { tokens := [[50864, 100, 50614, 50614]], temperature := 0,
    avgLogprob := [0], compressionRatio := 0, noSpeechProb := 0 }

/-- C8: the claim that every appended Segment has `start ≤ end` for every
possible decoded token sequence fails: a sequence whose timestamps decrease
(`TS(10s)` before the consecutive pair at `TS(5s)`) produces a Segment with
`start = 10` and `end = 5`. -/
theorem C8_start_le_end_cex :
    ((processWindow testCfg 3000 st1 resDecreasing).alts.getD 0
        emptyAlt).allSegments.map (fun s => (s.start, s.end_)) = [(10, 5)] ∧
    ¬ ((10 : ℚ) ≤ 5) := by
  constructor
  · norm_num [processWindow, windowStep, processAlternative, shouldSkip,
      processAltCore, consecutive, consecLoop, consecStep, add_segment,
      mkSegment, promptResetStep, segmentFrames, segment_duration,
      timePrecision, padOrTrimLen, isTimestamp, pyStrip, emptyAlt, testCfg,
      testTok, testDecode, tokStr, st1, resDecreasing, N_FRAMES, HOP_LENGTH,
      SAMPLE_RATE, List.enum, List.enumFrom, List.foldl]
    decide
  · norm_num

/-- Membership in `add_segment`'s output: the old segments, or the one
appended record. -/
theorem mem_add_segment (tok : Tokenizer) (seek : Int) (segs : List Segment)
    (start end_ : ℚ) (textTokens : List Nat) (result : DecodingResult)
    (s : Segment) (hs : s ∈ add_segment tok seek segs start end_ textTokens result) :
    s ∈ segs ∨
      s = mkSegment seek segs start end_
        (tok.decode (textTokens.filter (fun t => decide (t < tok.eot)))) result := by
  unfold add_segment at hs
  dsimp only at hs
  split at hs
  · exact Or.inl hs
  · rcases List.mem_append.1 hs with h | h
    · exact Or.inl h
    · exact Or.inr (List.mem_singleton.1 h)

/-- Reading an updated alternative list at `j`: the new entry (when `i = j`
is in range) or the old entry. -/
theorem getD_set_cases (l : List AltState) (i j : Nat) (a : AltState) :
    ((l.set i a).getD j emptyAlt = a ∧ i = j ∧ i < l.length) ∨
      (l.set i a).getD j emptyAlt = l.getD j emptyAlt := by
  rw [List.getD_eq_getElem?_getD, List.getD_eq_getElem?_getD,
    List.getElem?_set]
  by_cases hij : i = j
  · subst hij
    by_cases hi : i < l.length
    · left
      simp [hi]
    · right
      rw [if_pos rfl, if_neg hi, List.getElem?_eq_none (not_lt.1 hi)]
  · right
    rw [if_neg hij]

/-- Membership in an updated alternative list: the old entry at `j`, or
the new entry when it landed at `j`. -/
theorem mem_getD_set (l : List AltState) (i j : Nat) (a : AltState)
    (s : Segment) (hs : s ∈ ((l.set i a).getD j emptyAlt).allSegments) :
    s ∈ (l.getD j emptyAlt).allSegments ∨ (s ∈ a.allSegments ∧ i = j) := by
  rcases getD_set_cases l i j a with ⟨heq, hij, -⟩ | heq
  · rw [heq] at hs
    exact Or.inr ⟨hs, hij⟩
  · rw [heq] at hs
    exact Or.inl hs

/-- A no-boundary alternative step only appends segments whose start does
not exceed their end (given nonnegative window duration and time
precision). -/
theorem processAlternative_mem_noBoundary (cfg : TranscribeCfg)
    (offset segDur tp : ℚ) (segFrames : Nat) (result : DecodingResult)
    (i : Nat) (tokens : List Nat) (st : LoopState)
    (hcons : consecutive cfg.tok tokens = [])
    (hsd : 0 ≤ segDur) (htp : 0 ≤ tp) (j : Nat) (s : Segment)
    (hs : s ∈ ((processAlternative cfg offset segDur tp segFrames result i
        tokens st).alts.getD j emptyAlt).allSegments) :
    s ∈ (st.alts.getD j emptyAlt).allSegments ∨ s.start ≤ s.end_ := by
  unfold processAlternative at hs
  split at hs
  · exact Or.inl hs
  · unfold processAltCore at hs
    dsimp only at hs
    rw [hcons] at hs
    simp only [List.length_nil, lt_self_iff_false, if_false] at hs
    rw [promptResetStep_alts] at hs
    rcases mem_getD_set _ i j _ s hs with h | ⟨hmem, hij⟩
    · exact Or.inl h
    · rcases mem_add_segment _ _ _ _ _ _ _ _ hmem with h | rfl
      · subst hij
        exact Or.inl h
      · right
        show offset ≤ offset + _
        refine le_add_of_nonneg_right ?_
        by_cases hts :
            0 < (tokens.filter (fun t => isTimestamp cfg.tok t)).length
        · rw [if_pos hts]
          have hmemf := getLastD_mem_of_ne_nil _ 0 (List.length_pos.1 hts)
          have hist := (List.mem_filter.1 hmemf).2
          have hle : cfg.tok.timestampBegin ≤
              (tokens.filter (fun t => isTimestamp cfg.tok t)).getLastD 0 := by
            simpa [isTimestamp] using of_decide_eq_true hist
          refine mul_nonneg ?_ htp
          have h1 : (0 : Int) ≤
              ((tokens.filter (fun t => isTimestamp cfg.tok t)).getLastD 0 : Int) -
                (cfg.tok.timestampBegin : Int) := by
            omega
          exact_mod_cast h1
        · rw [if_neg hts]
          exact hsd

/-- The second component of an `enumFrom` entry is a list member. -/
theorem enumFrom_snd_mem : ∀ (l : List (List Nat)) (n : Nat)
    (p : Nat × List Nat), p ∈ List.enumFrom n l → p.2 ∈ l
  | [], _, _, h => absurd h (List.not_mem_nil _)
  | x :: xs, n, p, h => by
    rcases List.mem_cons.1 h with rfl | h
    · exact List.mem_cons_self x xs
    · exact List.mem_cons_of_mem x (enumFrom_snd_mem xs (n + 1) p h)

/-- Folding alternative steps whose token sequences all lack consecutive
boundaries only appends segments with `start ≤ end`. -/
theorem foldl_windowStep_mem_noBoundary (cfg : TranscribeCfg)
    (offset segDur tp : ℚ) (segFrames : Nat) (result : DecodingResult)
    (hsd : 0 ≤ segDur) (htp : 0 ≤ tp) :
    ∀ (l : List (Nat × List Nat)) (st : LoopState),
      (∀ p ∈ l, consecutive cfg.tok p.2 = []) →
      ∀ (j : Nat) (s : Segment),
        s ∈ ((l.foldl (windowStep cfg offset segDur tp segFrames result)
            st).alts.getD j emptyAlt).allSegments →
        s ∈ (st.alts.getD j emptyAlt).allSegments ∨ s.start ≤ s.end_
  | [], _, _, _, _, hs => Or.inl hs
  | x :: xs, st, hl, j, s, hs => by
    rw [List.foldl_cons] at hs
    rcases foldl_windowStep_mem_noBoundary cfg offset segDur tp segFrames
        result hsd htp xs _ (fun p hp => hl p (List.mem_cons_of_mem x hp))
        j s hs with h | h
    · exact processAlternative_mem_noBoundary cfg offset segDur tp segFrames
        result x.1 x.2 st (hl x (List.mem_cons_self x xs)) hsd htp j s h
    · exact Or.inr h

/-- C8 (amended): in the no-boundary path — every alternative of the window
decoding without a consecutive-timestamp pair — every Segment appended to
any alternative's segment list satisfies `start ≤ end`; the invariant does
not extend to the consecutive-boundaries path, where out-of-order
timestamps produce a Segment with `start > end`. -/
theorem C8_start_le_end_noBoundary (cfg : TranscribeCfg) (nFrames : Nat)
    (st : LoopState) (result : DecodingResult)
    (h : ∀ toks ∈ result.tokens, consecutive cfg.tok toks = [])
    (j : Nat) (s : Segment)
    (hs : s ∈ ((processWindow cfg nFrames st result).alts.getD j
        emptyAlt).allSegments) :
    s ∈ (st.alts.getD j emptyAlt).allSegments ∨ s.start ≤ s.end_ := by
  have hsd : 0 ≤ segment_duration nFrames st.seek := by
    norm_num [segment_duration, segmentFrames, padOrTrimLen, N_FRAMES,
      HOP_LENGTH, SAMPLE_RATE]
  have htp : 0 ≤ timePrecision cfg.inputStride := by
    unfold timePrecision
    positivity
  exact foldl_windowStep_mem_noBoundary cfg
    ((st.seek : ℚ) * HOP_LENGTH / SAMPLE_RATE)
    (segment_duration nFrames st.seek) (timePrecision cfg.inputStride)
    (segmentFrames nFrames st.seek) result hsd htp result.tokens.enum st
    (fun p hp => h p.2 (enumFrom_snd_mem result.tokens 0 p hp)) j s hs

/-- An already-present segment with `start = 0`, `end = 1`. -/
def s0seg : Segment :=
  { id := 0, seek := 0, start := 0, end_ := 1, text := "hi", tokens := [],
    temperature := 0, avgLogprob := [], compressionRatio := 0,
    noSpeechProb := 0 }

/-- A one-alternative state already holding `s0seg`. -/
def stWith : LoopState :=
  { seek := 0, alts := [{ allTokens := [], allSegments := [s0seg] }],
    promptResetSince := 0 }

/-- A result whose single alternative decodes no tokens at all. -/
def resEmptyTokens : DecodingResult :=
  { tokens := [[]], temperature := 0, avgLogprob := [0],
    compressionRatio := 0, noSpeechProb := 0 }

/-- C8 witness: the no-boundary invariant applied to a concrete window. -/
theorem C8_start_le_end_noBoundary_witness :
    s0seg ∈ (stWith.alts.getD 0 emptyAlt).allSegments ∨
      s0seg.start ≤ s0seg.end_ :=
  C8_start_le_end_noBoundary testCfg 3000 stWith resEmptyTokens (by decide)
    0 s0seg (by decide)

/-- C9: for every invocation of the segment-emission helper, if the decoded
text (of the sub-`eot` tokens) strips to the empty string, the alternative's
segment list is returned unchanged; otherwise exactly one segment record is
appended to its end. -/
theorem C9_empty_text_suppression (tok : Tokenizer) (seek : Int)
    (segs : List Segment) (start end_ : ℚ) (textTokens : List Nat)
    (result : DecodingResult) :
    (pyStrip (tok.decode (textTokens.filter (fun t => decide (t < tok.eot))))
        = "" →
      add_segment tok seek segs start end_ textTokens result = segs) ∧
    (pyStrip (tok.decode (textTokens.filter (fun t => decide (t < tok.eot))))
        ≠ "" →
      add_segment tok seek segs start end_ textTokens result =
        segs ++ [mkSegment seek segs start end_
          (tok.decode (textTokens.filter (fun t => decide (t < tok.eot))))
          result]) := by
  constructor
  · intro h
    unfold add_segment
    rw [if_pos h]
  · intro h
    unfold add_segment
    rw [if_neg h]

/-- C9 witness: a window whose only tokens are timestamp tokens decodes to
empty text and appends nothing, while the text token `100` ("hi") appends
exactly one segment. -/
theorem C9_empty_text_suppression_witness :
    add_segment testTok 0 [] 0 5 [50364, 50614] resShort = [] ∧
    add_segment testTok 0 [] 0 5 [100] resShort =
      [] ++ [mkSegment 0 [] 0 5
        (testTok.decode ([100].filter (fun t => decide (t < testTok.eot))))
        resShort] :=
  ⟨(C9_empty_text_suppression testTok 0 [] 0 5 [50364, 50614] resShort).1
      (by decide),
   (C9_empty_text_suppression testTok 0 [] 0 5 [100] resShort).2 (by decide)⟩

/-- Segments produced by the consecutive-boundaries fold: the old ones, or
one whose text is the decoding of some sub-`eot`-filtered token list. -/
theorem foldl_consecStep_mem_text (tok : Tokenizer) (seek : Int)
    (offset tp : ℚ) (result : DecodingResult) (tokens : List Nat) :
    ∀ (l : List Nat) (acc : List Segment × Nat) (s : Segment),
      s ∈ (l.foldl (consecStep tok seek offset tp result tokens) acc).1 →
      s ∈ acc.1 ∨
        ∃ tl : List Nat,
          s.text = tok.decode (tl.filter (fun t => decide (t < tok.eot)))
  | [], _, _, hs => Or.inl hs
  | x :: xs, acc, s, hs => by
    rw [List.foldl_cons] at hs
    rcases foldl_consecStep_mem_text tok seek offset tp result tokens xs _ s
        hs with h | h
    · rcases mem_add_segment _ _ _ _ _ _ _ _ h with h | rfl
      · exact Or.inl h
      · exact Or.inr ⟨_, rfl⟩
    · exact Or.inr h

/-- Any alternative step (either extraction path) only appends segments
whose text is the decoding of a sub-`eot`-filtered token list. -/
theorem processAlternative_mem_text (cfg : TranscribeCfg)
    (offset segDur tp : ℚ) (segFrames : Nat) (result : DecodingResult)
    (i : Nat) (tokens : List Nat) (st : LoopState) (j : Nat) (s : Segment)
    (hs : s ∈ ((processAlternative cfg offset segDur tp segFrames result i
        tokens st).alts.getD j emptyAlt).allSegments) :
    s ∈ (st.alts.getD j emptyAlt).allSegments ∨
      ∃ tl : List Nat,
        s.text = cfg.tok.decode (tl.filter (fun t => decide (t < cfg.tok.eot))) := by
  unfold processAlternative at hs
  split at hs
  · exact Or.inl hs
  · unfold processAltCore at hs
    dsimp only at hs
    split at hs
    · rw [promptResetStep_alts] at hs
      rcases mem_getD_set _ i j _ s hs with h | ⟨hmem, hij⟩
      · exact Or.inl h
      · rcases foldl_consecStep_mem_text cfg.tok st.seek offset tp result
            tokens (consecutive cfg.tok tokens) _ s hmem with h | h
        · subst hij
          exact Or.inl h
        · exact Or.inr h
    · rw [promptResetStep_alts] at hs
      rcases mem_getD_set _ i j _ s hs with h | ⟨hmem, hij⟩
      · exact Or.inl h
      · rcases mem_add_segment _ _ _ _ _ _ _ _ hmem with h | rfl
        · subst hij
          exact Or.inl h
        · exact Or.inr ⟨_, rfl⟩

/-- C10: every Segment emitted by either extraction path has its text
decoded only from tokens with id strictly below the end-of-text sentinel;
given the tokenizer layout of the spec (`eot ≤ timestamp_begin`), neither
the sentinel nor any timestamp token contributes to any segment's text. -/
theorem C10_text_below_eot (cfg : TranscribeCfg) (offset segDur tp : ℚ)
    (segFrames : Nat) (result : DecodingResult) (i : Nat) (tokens : List Nat)
    (st : LoopState) (heot : cfg.tok.eot ≤ cfg.tok.timestampBegin)
    (j : Nat) (s : Segment)
    (hs : s ∈ ((processAlternative cfg offset segDur tp segFrames result i
        tokens st).alts.getD j emptyAlt).allSegments) :
    s ∈ (st.alts.getD j emptyAlt).allSegments ∨
      ∃ tl : List Nat,
        s.text = cfg.tok.decode (tl.filter (fun t => decide (t < cfg.tok.eot))) ∧
        ∀ t ∈ tl.filter (fun t => decide (t < cfg.tok.eot)),
          t ≠ cfg.tok.eot ∧ isTimestamp cfg.tok t = false := by
  rcases processAlternative_mem_text cfg offset segDur tp segFrames result i
      tokens st j s hs with h | ⟨tl, htl⟩
  · exact Or.inl h
  · refine Or.inr ⟨tl, htl, ?_⟩
    intro t ht
    have hlt : t < cfg.tok.eot :=
      of_decide_eq_true (List.mem_filter.1 ht).2
    refine ⟨Nat.ne_of_lt hlt, ?_⟩
    unfold isTimestamp
    exact decide_eq_false (not_le.2 (lt_of_lt_of_le hlt heot))

/-- C10 witness: the filter property applied to a concrete window. -/
theorem C10_text_below_eot_witness :
    s0seg ∈ (stWith.alts.getD 0 emptyAlt).allSegments ∨
      ∃ tl : List Nat,
        s0seg.text = testCfg.tok.decode
          (tl.filter (fun t => decide (t < testCfg.tok.eot))) ∧
        ∀ t ∈ tl.filter (fun t => decide (t < testCfg.tok.eot)),
          t ≠ testCfg.tok.eot ∧ isTimestamp testCfg.tok t = false :=
  C10_text_below_eot testCfg 0 30 (mkRat 1 50) 3000 resEmptyTokens 0 []
    stWith (by decide) 0 s0seg (by decide)

end Whisper
